import Mathlib

/-!
Shallow embedding of the crawl orchestration core of `app.py` (Delhi High
Court PDF crawler).  Pure helpers (`sanitize_title`, `get_total_pages`,
`extract_pdfs`) are translated as Lean functions on an explicit document
model; the stateful orchestrator (`crawl_pdfs`, `download_pdf`) is
translated as explicit state passing over an environment that supplies the
outcomes of the external HTTP, Drive and filesystem collaborators.  Every
progress message pushed to the progress queue is modelled as an event in an
ordered trace.
-/

/-! ## Basic string machinery (ASCII scope)

Python string helpers used by the source, modelled on lists of characters.
The model covers the ASCII range; the source never manipulates text outside
it except by passing it through opaquely.
-/

/-- Whitespace characters recognised by Python `str.strip` and `\s` in the
ASCII range: space, tab, newline, carriage return, vertical tab, form feed. -/
def pyWs (c : Char) : Bool :=
  c = ' ' || c = '\t' || c = '\n' || c = '\r' || c = Char.ofNat 11 || c = Char.ofNat 12

/-- Python `str.strip`: drop leading and trailing whitespace. -/
def pyStripList (l : List Char) : List Char :=
  ((l.dropWhile pyWs).reverse.dropWhile pyWs).reverse

/-- Python `str.strip` on a `String`. -/
def pyStrip (s : String) : String :=
  String.mk (pyStripList s.data)

/-- Python `str.lower` (ASCII). -/
def pyLower (s : String) : String :=
  String.mk (s.data.map Char.toLower)

/-- Substring test on character lists: does `needle` occur contiguously in
`hay`?  Models the Python `needle in hay` operator on strings. -/
def listInfix (needle : List Char) : List Char → Bool
  | [] => needle.isEmpty
  | c :: t => needle.isPrefixOf (c :: t) || listInfix needle t

/-- Python `needle in hay` on strings. -/
def strContains (hay needle : String) : Bool :=
  listInfix needle.data hay.data

/-- ASCII decimal digit. -/
def isDigitChar (c : Char) : Bool :=
  ('0' ≤ c) && (c ≤ '9')

/-- Numeric value of an ASCII digit run (Python `int` on a digit string). -/
def digitsVal (ds : List Char) : Nat :=
  ds.foldl (fun a c => a * 10 + (c.toNat - 48)) 0

/-- Python `int(s)` for a string holding an optional sign and ASCII digits;
`none` models the `ValueError` raised on any other input. -/
def pythonInt (s : String) : Option Int :=
  match pyStripList s.data with
  | [] => none
  | c :: rest =>
    if c = '-' then
      if (!rest.isEmpty) && rest.all isDigitChar then some (-(Int.ofNat (digitsVal rest))) else none
    else if c = '+' then
      if (!rest.isEmpty) && rest.all isDigitChar then some (Int.ofNat (digitsVal rest)) else none
    else
      if (c :: rest).all isDigitChar then some (Int.ofNat (digitsVal (c :: rest))) else none

/-! ## sanitize_title (app.py lines 185-189) -/

/-- The character class removed by the first substitution in
`sanitize_title`: the literal characters in the regex character class and
the control range 00-1F. -/
def invalidChar (c : Char) : Bool :=
  c = '<' || c = '>' || c = ':' || c = '"' || c = '/' || c = '\\' ||
  c = '|' || c = '?' || c = '*' || decide (c.toNat ≤ 31)

/-- Replace each maximal run of whitespace by a single underscore, as the
substitution of an underscore for each regex match of one-or-more
whitespace characters does.  The flag records whether the previous
character was part of a whitespace run. -/
def collapseWsAux : Bool → List Char → List Char
  | _, [] => []
  | prevWs, c :: cs =>
    if pyWs c then
      if prevWs then collapseWsAux true cs else '_' :: collapseWsAux true cs
    else
      c :: collapseWsAux false cs

/-- `sanitize_title` from the source: remove the invalid characters, strip,
collapse whitespace runs to underscores, truncate to 100 characters. -/
def sanitize_title (title : String) : String :=
  let step1 := title.data.filter (fun c => !invalidChar c)
  let step2 := collapseWsAux false (pyStripList step1)
  String.mk (step2.take 100)

/-- Modelled from the spec: the filename sanitisation as the specification
words it — strip characters outside the class letters, digits, space,
underscore, hyphen (and control characters), collapse whitespace to
underscores, truncate to 100 characters.  Used only to compare against the
sanitisation the source actually performs. -/
def sanitize_title_specModel (title : String) : String :=
  let keep := fun c =>
    (('A' ≤ c) && (c ≤ 'Z')) || (('a' ≤ c) && (c ≤ 'z')) ||
    (('0' ≤ c) && (c ≤ '9')) || c = ' ' || c = '_' || c = '-'
  let step1 := title.data.filter keep
  let step2 := collapseWsAux false (pyStripList step1)
  String.mk (step2.take 100)

/-- The upload filename derived in `download_pdf` (lines 198-200):
`sanitize_title` of the title, an underscore, the 8-character hex
fingerprint of the url, and the pdf extension.  The fingerprint function
(`hashlib.md5(url).hexdigest()[:8]` in the source) is an external library
call and is passed in as a parameter. -/
def make_filename (h8 : String → String) (title url : String) : String :=
  sanitize_title title ++ "_" ++ h8 url ++ ".pdf"

/-- The filename as the specification words it, using the spec wording of
the sanitisation step.  Used only for comparison. -/
def make_filename_specModel (h8 : String → String) (title url : String) : String :=
  sanitize_title_specModel title ++ "_" ++ h8 url ++ ".pdf"

/-! ## get_total_pages (app.py lines 101-118) -/

/-- Leftmost match of the pattern: the literal text `total `, one or more
decimal digits, the literal text ` records`, starting at this position;
returns the digit group value. -/
def matchTotalAt (l : List Char) : Option Nat :=
  if ("total ").data.isPrefixOf l then
    let rest := l.drop 6
    let ds := rest.takeWhile isDigitChar
    if (!ds.isEmpty) && (" records").data.isPrefixOf (rest.drop ds.length) then
      some (digitsVal ds)
    else none
  else none

/-- Leftmost regex search for `total (digits) records` over the text, as
`re.search` performs it: try each start position left to right. -/
def findTotalRecords : List Char → Option Nat
  | [] => none
  | c :: cs =>
    match matchTotalAt (c :: cs) with
    | some n => some n
    | none => findTotalRecords cs

/-- The parsed page as far as `get_total_pages` and `extract_pdfs` consume
it.  `banner` is the text of the pagination div when that div is found;
`totalNoPage` is the value attribute of the hidden `total_no_page` input
when that input is found; `table` is the rows of the results table when
that table is found. -/
structure Cell where
  text : String
  href : Option String
  deriving DecidableEq

structure Row where
  cols : List Cell
  deriving DecidableEq

structure Doc where
  banner : Option String
  totalNoPage : Option String
  table : Option (List Row)
  deriving DecidableEq

/-- The fallback branch of `get_total_pages`: read the hidden input when it
is present and its value attribute is a truthy (non-empty) string; a value
that fails to parse as an integer raises, and the surrounding handler
returns 1; with no usable source the function returns 1. -/
def fallbackPages (doc : Doc) : Int :=
  match doc.totalNoPage with
  | some v =>
    if v ≠ "" then
      match pythonInt v with
      | some k => k
      | none => 1
    else 1
  | none => 1

/-- `get_total_pages` from the source: search the stripped banner text for
the record-count pattern and divide by the 10-records-per-page constant
(rounding up by adding 9 before the floor division); otherwise fall back to
the hidden page-count field; otherwise 1. -/
def get_total_pages (doc : Doc) : Int :=
  match doc.banner with
  | some text =>
    match findTotalRecords (pyStripList text.data) with
    | some n => Int.ofNat ((n + 10 - 1) / 10)
    | none => fallbackPages doc
  | none => fallbackPages doc

/-- The record count the banner yields, when the banner is present and the
pattern matches: the quantity the primary strategy of `get_total_pages`
works from. -/
def bannerCount (doc : Doc) : Option Nat :=
  match doc.banner with
  | some text => findTotalRecords (pyStripList text.data)
  | none => none

/-! ## Descriptors and the event trace -/

/-- A PDF descriptor as `extract_pdfs` builds it (one dict per row). -/
structure PdfInfo where
  case_no : String
  title : String
  judgement_date : String
  pdf_url : String
  deriving DecidableEq

/-- One entry of the progress trace.  Each constructor models one message
the source pushes to the progress queue, except `getAttempt`, which models
the outbound GET for a pdf url (the submission of actual download work),
and `debugSaved`, which models the debug-archive write performed by
`save_debug_html`. -/
inductive Ev where
  | connected
  | noCombos
  | processingCombo (i : Nat)
  | fetchStatus (p : Nat)
  | fetchError (p : Nat)
  | foundPages (t : Int)
  | noRecords (p : Nat)
  | noTable (p : Nat)
  | insufficientCols (p : Nat)
  | foundPdfs (p : Nat) (n : Nat)
  | skipFurtherPages
  | fetchingPage (p : Nat)
  | dupSkipped (url : String)
  | getAttempt (url : String)
  | downloadError (url : String)
  | uploadError (url : String)
  | uploaded (url : String)
  | debugSaved (p : Nat)
  | completed
  | errorInCrawling
  deriving DecidableEq

/-! ## extract_pdfs (app.py lines 140-183) -/

/-- Base against which relative pdf hrefs are resolved. -/
def pdfBase : String := "https://dhccaseinfo.nic.in/"

/-- Model of `urllib.parse.urljoin` (external library) restricted to the
shapes the crawl meets: an absolute href passes through unchanged, any
other href is joined to the base.  Every claim treats the resulting url as
an opaque string. -/
def urljoin (base href : String) : String :=
  if ("http://").isPrefixOf href || ("https://").isPrefixOf href then href else base ++ href

/-- The cell at an index of a row (`cols[k]` in the source; the default is
never reached because every access is guarded by the length test). -/
def cellAt (cs : List Cell) (k : Nat) : Cell :=
  cs.getD k { text := "", href := none }

/-- The descriptor built from a row whose anchor href is `h`. -/
def mkPdf (row : Row) (h : String) : PdfInfo :=
  { case_no := pyStrip ((cellAt row.cols 1).text)
  , title := pyStrip ((cellAt row.cols 2).text)
  , judgement_date := pyStrip ((cellAt row.cols 3).text)
  , pdf_url := urljoin pdfBase h }

/-- The per-row loop of `extract_pdfs`: a row with at least five cells and
an anchor with a truthy href yields a descriptor; a row with at least five
cells but no usable anchor is silently skipped; a shorter row is skipped
with a warning event. -/
def extractRows (p : Nat) : List Row → List PdfInfo × List Ev
  | [] => ([], [])
  | row :: rest =>
    let r := extractRows p rest
    if row.cols.length ≥ 5 then
      match (cellAt row.cols 4).href with
      | some h => if h ≠ "" then (mkPdf row h :: r.1, r.2) else r
      | none => r
    else (r.1, Ev.insufficientCols p :: r.2)

/-- `extract_pdfs` from the source: a raw text containing either no-records
phrase (case-insensitively) yields no descriptors; a missing results table
is the malformed-page case — warn, archive the raw body, yield nothing;
otherwise walk the rows past the header row and report the count found. -/
def extract_pdfs (doc : Doc) (raw : String) (p : Nat) : List PdfInfo × List Ev :=
  if strContains (pyLower raw) ("no records found") || strContains (pyLower raw) ("no matching records") then
    ([], [Ev.noRecords p])
  else
    match doc.table with
    | none => ([], [Ev.noTable p, Ev.debugSaved p])
    | some rows =>
      let r := extractRows p (rows.drop 1)
      (r.1, r.2 ++ [Ev.foundPdfs p r.1.length])

/-! ## download_pdf (app.py lines 191-217) -/

/-- Outcome of the network work of one `download_pdf` call, supplied by the
environment: the GET for the pdf bytes fails, the Drive upload fails, or
both succeed. -/
inductive NetOutcome where
  | downloadFail
  | uploadFail
  | ok
  deriving DecidableEq

/-- `download_pdf` from the source.  A url already in `processed` is
skipped before any network work.  Otherwise the filename is derived, the
GET is issued (event `getAttempt`); a failed GET or a failed upload is
caught and returns false with the seen-set unchanged; only after the
confirmed upload is the url added to the seen-set and true returned. -/
def download_pdf (h8 : String → String) (pdf : PdfInfo) (processed : List String)
    (out : NetOutcome) : Bool × List String × List Ev :=
  if pdf.pdf_url ∈ processed then
    (false, processed, [Ev.dupSkipped pdf.pdf_url])
  else
    let _filename := make_filename h8 pdf.title pdf.pdf_url
    match out with
    | NetOutcome.downloadFail =>
      (false, processed, [Ev.getAttempt pdf.pdf_url, Ev.downloadError pdf.pdf_url])
    | NetOutcome.uploadFail =>
      (false, processed, [Ev.getAttempt pdf.pdf_url, Ev.uploadError pdf.pdf_url])
    | NetOutcome.ok =>
      (true, pdf.pdf_url :: processed, [Ev.getAttempt pdf.pdf_url, Ev.uploaded pdf.pdf_url])

/-- The per-page download loop of `crawl_pdfs`: call `download_pdf` on each
descriptor in order, threading the seen-set and a per-combination call
counter that indexes into the environment oracle of network outcomes. -/
def process_pdfs (h8 : String → String) (ora : Nat → NetOutcome) :
    List PdfInfo → List String × Nat → (List String × Nat) × List Ev
  | [], st => (st, [])
  | pdf :: rest, st =>
    let r := download_pdf h8 pdf st.1 (ora st.2)
    let r' := process_pdfs h8 ora rest (r.2.1, st.2 + 1)
    (r'.1, r.2.2 ++ r'.2)

/-! ## The orchestrator crawl_pdfs (app.py lines 219-277) -/

/-- One fetched page: the parsed document and the raw response text. -/
structure Page where
  doc : Doc
  raw : String
  deriving DecidableEq

/-- One (category, year) crawl unit as loaded from the input sheet. -/
structure Combo where
  categoryValue : String
  categoryName : String
  year : Int
  deriving DecidableEq

/-- The run environment: whether the Drive service initialises, the loaded
combination list (empty also models a load failure, which the loader
swallows by returning an empty list), the result of the page fetch for each
(combination index, page number), and the network outcome of each
download attempt (combination index, attempt counter). -/
structure Env where
  driveOk : Bool
  combos : List Combo
  fetch : Nat → Nat → Option Page
  net : Nat → Nat → NetOutcome

/-- `fetch_page` from the source: a successful POST reports its status and
returns the page; any request failure reports the error and returns
nothing. -/
def fetch_page (env : Env) (i p : Nat) : Option Page × List Ev :=
  match env.fetch i p with
  | some pg => (some pg, [Ev.fetchStatus p])
  | none => (none, [Ev.fetchError p])

/-- The page range `range(2, total_pages + 1)` of the source: pages 2 up to
the resolved total. -/
def pageRange (t : Int) : List Nat :=
  List.range' 2 (t - 1).toNat

/-- The pages-from-2 loop of `crawl_pdfs`: announce the page, fetch it, on
failure continue with the next page, otherwise extract, download and
archive the raw body. -/
def pageLoop (env : Env) (h8 : String → String) (i : Nat) :
    List Nat → List String × Nat → List Ev × (List String × Nat)
  | [], st => ([], st)
  | p :: rest, st =>
    let f := fetch_page env i p
    match f.1 with
    | none =>
      let r := pageLoop env h8 i rest st
      (Ev.fetchingPage p :: f.2 ++ r.1, r.2)
    | some pg =>
      let ex := extract_pdfs pg.doc pg.raw p
      let d := process_pdfs h8 (env.net i) ex.1 st
      let r := pageLoop env h8 i rest d.1
      (Ev.fetchingPage p :: f.2 ++ ex.2 ++ d.2 ++ [Ev.debugSaved p] ++ r.1, r.2)

/-- The body of the per-combination loop of `crawl_pdfs`: announce the
combination, fetch page 1 (a failure abandons the combination), resolve the
page count, extract page 1, take the early exit when nothing was extracted
and the raw text contains the no-records phrase, otherwise download the
page-1 descriptors, archive page 1 and walk the remaining pages.  Returns
the trace and the final seen-set of the combination. -/
def processCombo (env : Env) (h8 : String → String) (i : Nat) : List Ev × List String :=
  let f := fetch_page env i 1
  match f.1 with
  | none => (Ev.processingCombo i :: f.2, [])
  | some pg =>
    let t := get_total_pages pg.doc
    let ex := extract_pdfs pg.doc pg.raw 1
    if ex.1 = [] ∧ strContains (pyLower pg.raw) ("no records") then
      (Ev.processingCombo i :: f.2 ++ [Ev.foundPages t] ++ ex.2 ++ [Ev.skipFurtherPages], [])
    else
      let d := process_pdfs h8 (env.net i) ex.1 ([], 0)
      let r := pageLoop env h8 i (pageRange t) d.1
      (Ev.processingCombo i :: f.2 ++ [Ev.foundPages t] ++ ex.2 ++ d.2 ++ [Ev.debugSaved 1] ++ r.1,
       r.2.1)

/-- `crawl_pdfs` from the source: a Drive initialisation failure is caught
by the outer handler and reported as the terminal failure event; an empty
combination list is announced and the function returns with no terminal
event; otherwise every combination is processed in order and the terminal
success event closes the trace. -/
def crawl_pdfs (env : Env) (h8 : String → String) : List Ev :=
  if !env.driveOk then [Ev.errorInCrawling]
  else if env.combos.isEmpty then [Ev.connected, Ev.noCombos]
  else
    Ev.connected ::
      ((List.range env.combos.length).map (fun i => (processCombo env h8 i).1)).flatten
      ++ [Ev.completed]

/-! ## Concrete inputs used by counterexamples and witnesses -/

/-- A fixed 8-character fingerprint function standing in for the md5 prefix
in concrete evaluations. -/
def h8fix : String → String := fun _ => "abcdef01"

def combo31 : Combo := { categoryValue := "31", categoryName := "Civil", year := 2023 }

/-- Page whose raw text carries the mixed-case no-matching-records phrase
while the banner reports 47 records. -/
def pageNMR : Page :=
  { doc := { banner := some ("total 47 records"), totalNoPage := none, table := none }
  , raw := "No Matching Records" }

def envNMR : Env :=
  { driveOk := true
  , combos := [combo31]
  , fetch := fun i p => if i = 0 ∧ p = 1 then some pageNMR else none
  , net := fun _ _ => NetOutcome.ok }

/-- Environment whose combination list loads empty. -/
def envNoCombos : Env :=
  { driveOk := true, combos := [], fetch := fun _ _ => none, net := fun _ _ => NetOutcome.ok }

/-- A featureless page: no banner, no hidden field, an empty results table. -/
def pagePlain : Page :=
  { doc := { banner := none, totalNoPage := none, table := some [] }, raw := "x" }

/-- Environment with two combinations whose first page-1 fetch fails. -/
def envFailP1 : Env :=
  { driveOk := true
  , combos := [combo31, combo31]
  , fetch := fun i p => if i = 1 ∧ p = 1 then some pagePlain else none
  , net := fun _ _ => NetOutcome.ok }

/-- Page whose raw text is the lower-case no-records-found phrase. -/
def pageNRF : Page :=
  { doc := { banner := none, totalNoPage := none, table := some [] }
  , raw := "no records found" }

def envNRF : Env :=
  { driveOk := true
  , combos := [combo31]
  , fetch := fun i p => if i = 0 ∧ p = 1 then some pageNRF else none
  , net := fun _ _ => NetOutcome.ok }

/-- A results table with a header row and one well-formed data row. -/
def goodRow : Row :=
  { cols :=
      [ { text := "1", href := none }
      , { text := "C 1/2023", href := none }
      , { text := "A Title", href := none }
      , { text := "01.01.2023", href := none }
      , { text := "", href := some ("x.pdf") } ] }

def pageOneRow : Page :=
  { doc := { banner := none, totalNoPage := none, table := some [{ cols := [] }, goodRow] }
  , raw := "y" }

def envOneRow : Env :=
  { driveOk := true
  , combos := [combo31]
  , fetch := fun i p => if i = 0 ∧ p = 1 then some pageOneRow else none
  , net := fun _ _ => NetOutcome.ok }

/-- The url the single row of `pageOneRow` resolves to. -/
def urlOneRow : String := "https://dhccaseinfo.nic.in/x.pdf"

example :
    (processCombo envNMR h8fix 0).1 =
      [Ev.processingCombo 0, Ev.fetchStatus 1, Ev.foundPages 5, Ev.noRecords 1,
       Ev.debugSaved 1,
       Ev.fetchingPage 2, Ev.fetchError 2, Ev.fetchingPage 3, Ev.fetchError 3,
       Ev.fetchingPage 4, Ev.fetchError 4, Ev.fetchingPage 5, Ev.fetchError 5] := by decide

example : crawl_pdfs envNoCombos h8fix = [Ev.connected, Ev.noCombos] := by decide

example :
    crawl_pdfs envFailP1 h8fix =
      [Ev.connected, Ev.processingCombo 0, Ev.fetchError 1,
       Ev.processingCombo 1, Ev.fetchStatus 1, Ev.foundPages 1, Ev.foundPdfs 1 0,
       Ev.debugSaved 1, Ev.completed] := by decide

example :
    (processCombo envNRF h8fix 0).1 =
      [Ev.processingCombo 0, Ev.fetchStatus 1, Ev.foundPages 1, Ev.noRecords 1,
       Ev.skipFurtherPages] := by decide

example :
    (processCombo envOneRow h8fix 0).1 =
      [Ev.processingCombo 0, Ev.fetchStatus 1, Ev.foundPages 1, Ev.foundPdfs 1 1,
       Ev.getAttempt urlOneRow, Ev.uploaded urlOneRow, Ev.debugSaved 1] ∧
    (processCombo envOneRow h8fix 0).2 = [urlOneRow] := by decide

/-! ## Deduplication invariant

The seen-set of a combination never holds a url twice, a url is in the
seen-set exactly when its upload was confirmed, and once a url is in the
seen-set no further download work is ever submitted for it.
-/

/-- An event list that carries no download work: no upload event and no GET
attempt for any url. -/
def NoDl (l : List Ev) : Prop :=
  ∀ u, Ev.uploaded u ∉ l ∧ Ev.getAttempt u ∉ l

/-- After an upload of a url, the trace never shows another GET attempt or
another upload for that url. -/
def NoResub (evs : List Ev) : Prop :=
  ∀ u a b, evs = a ++ Ev.uploaded u :: b → Ev.getAttempt u ∉ b ∧ Ev.uploaded u ∉ b

/-- The deduplication invariant tying the seen-set to the trace. -/
def DedupInv (s : List String) (evs : List Ev) : Prop :=
  s.Nodup ∧ (∀ u, evs.count (Ev.uploaded u) = if u ∈ s then 1 else 0) ∧ NoResub evs

theorem dedupInv_nil : DedupInv [] [] := by
  refine ⟨List.nodup_nil, ?_, ?_⟩
  · intro u; simp
  · intro u a b h
    exact absurd h (by simp)

theorem noResub_append {evs ds : List Ev} (h1 : NoResub evs)
    (hds : ∀ u, Ev.uploaded u ∈ evs → Ev.getAttempt u ∉ ds ∧ Ev.uploaded u ∉ ds)
    (hin : ∀ u a b, ds = a ++ Ev.uploaded u :: b → Ev.getAttempt u ∉ b ∧ Ev.uploaded u ∉ b) :
    NoResub (evs ++ ds) := by
  intro u a b hab
  rcases List.append_eq_append_iff.mp hab.symm with ⟨a', hevs, hsplit⟩ | ⟨c', _, hds2⟩
  · cases a' with
    | nil =>
      exact hin u [] b (by simpa using hsplit.symm)
    | cons x a'' =>
      have hx : x = Ev.uploaded u ∧ b = a'' ++ ds := by
        constructor
        · exact (List.cons.injEq _ _ _ _ ▸ hsplit).1.symm
        · exact (List.cons.injEq _ _ _ _ ▸ hsplit).2
      rcases hx with ⟨hx1, hx2⟩
      subst hx1
      have hmem : Ev.uploaded u ∈ evs := by
        rw [hevs]; exact List.mem_append_right _ (List.mem_cons_self _ _)
      have hold := h1 u a a'' hevs
      have hnew := hds u hmem
      subst hx2
      constructor
      · exact List.not_mem_append hold.1 hnew.1
      · exact List.not_mem_append hold.2 hnew.2
  · exact hin u c' b hds2

theorem dedupInv_append_noDl {s : List String} {evs ds : List Ev}
    (h : DedupInv s evs) (hds : NoDl ds) : DedupInv s (evs ++ ds) := by
  obtain ⟨hn, hc, hr⟩ := h
  refine ⟨hn, ?_, ?_⟩
  · intro u
    rw [List.count_append, List.count_eq_zero.mpr (hds u).1]
    simpa using hc u
  · refine noResub_append hr (fun u _ => ⟨(hds u).2, (hds u).1⟩) ?_
    intro u a b hab
    exact absurd (hab ▸ List.mem_append_right a (List.mem_cons_self _ _)) (hds u).1

/-- In a trace satisfying the count part of the invariant, an upload event
pins its url into the seen-set. -/
theorem mem_of_uploaded {s : List String} {evs : List Ev}
    (hc : ∀ u, evs.count (Ev.uploaded u) = if u ∈ s then 1 else 0)
    {u : String} (hu : Ev.uploaded u ∈ evs) : u ∈ s := by
  by_contra hns
  have := hc u
  rw [if_neg hns] at this
  exact absurd (List.count_eq_zero.mp this) (by simpa using hu)

/-- Appending a batch of events that contains no upload event, and GET
attempts only for urls outside the seen-set, preserves the invariant. -/
theorem dedupInv_append_noUp {s : List String} {evs ds : List Ev}
    (h : DedupInv s evs)
    (hup : ∀ u, Ev.uploaded u ∉ ds)
    (hget : ∀ u, u ∈ s → Ev.getAttempt u ∉ ds) :
    DedupInv s (evs ++ ds) := by
  obtain ⟨hn, hc, hr⟩ := h
  refine ⟨hn, ?_, ?_⟩
  · intro u
    rw [List.count_append, List.count_eq_zero.mpr (hup u)]
    simpa using hc u
  · refine noResub_append hr ?_ ?_
    · intro u hu
      exact ⟨hget u (mem_of_uploaded hc hu), hup u⟩
    · intro u a b hab
      exact absurd (hab ▸ List.mem_append_right a (List.mem_cons_self _ _)) (hup u)

/-- Branch equation: a url already seen is skipped. -/
theorem download_pdf_seen {h8 : String → String} {pdf : PdfInfo} {s : List String}
    {out : NetOutcome} (hin : pdf.pdf_url ∈ s) :
    download_pdf h8 pdf s out = (false, s, [Ev.dupSkipped pdf.pdf_url]) := by
  simp [download_pdf, hin]

/-- Branch equation: a fresh url whose GET fails. -/
theorem download_pdf_dlFail {h8 : String → String} {pdf : PdfInfo} {s : List String}
    (hin : pdf.pdf_url ∉ s) :
    download_pdf h8 pdf s NetOutcome.downloadFail =
      (false, s, [Ev.getAttempt pdf.pdf_url, Ev.downloadError pdf.pdf_url]) := by
  simp [download_pdf, hin]

/-- Branch equation: a fresh url whose upload fails. -/
theorem download_pdf_upFail {h8 : String → String} {pdf : PdfInfo} {s : List String}
    (hin : pdf.pdf_url ∉ s) :
    download_pdf h8 pdf s NetOutcome.uploadFail =
      (false, s, [Ev.getAttempt pdf.pdf_url, Ev.uploadError pdf.pdf_url]) := by
  simp [download_pdf, hin]

/-- Branch equation: a fresh url processed to a confirmed upload. -/
theorem download_pdf_ok {h8 : String → String} {pdf : PdfInfo} {s : List String}
    (hin : pdf.pdf_url ∉ s) :
    download_pdf h8 pdf s NetOutcome.ok =
      (true, pdf.pdf_url :: s, [Ev.getAttempt pdf.pdf_url, Ev.uploaded pdf.pdf_url]) := by
  simp [download_pdf, hin]

/-- The deduplication invariant is preserved by one `download_pdf` call,
its events appended to the trace. -/
theorem dedupInv_download {s : List String} {evs : List Ev}
    (h : DedupInv s evs) (h8 : String → String) (pdf : PdfInfo) (out : NetOutcome) :
    DedupInv (download_pdf h8 pdf s out).2.1 (evs ++ (download_pdf h8 pdf s out).2.2) := by
  by_cases hin : pdf.pdf_url ∈ s
  · rw [download_pdf_seen hin]
    exact dedupInv_append_noUp h (by simp) (by simp)
  · cases out with
    | downloadFail =>
      rw [download_pdf_dlFail hin]
      refine dedupInv_append_noUp h (by simp) ?_
      intro u hu
      have hne : u ≠ pdf.pdf_url := fun he => hin (he ▸ hu)
      simp [hne]
    | uploadFail =>
      rw [download_pdf_upFail hin]
      refine dedupInv_append_noUp h (by simp) ?_
      intro u hu
      have hne : u ≠ pdf.pdf_url := fun he => hin (he ▸ hu)
      simp [hne]
    | ok =>
      obtain ⟨hn, hc, hr⟩ := h
      rw [download_pdf_ok hin]
      dsimp only
      refine ⟨List.nodup_cons.mpr ⟨hin, hn⟩, ?_, ?_⟩
      · intro u
        rw [List.count_append]
        by_cases hu : u = pdf.pdf_url
        · subst hu
          rw [hc _, if_neg hin, if_pos (List.mem_cons_self _ _)]
          simp
        · rw [hc _]
          have hz : Ev.uploaded u ∉
              [Ev.getAttempt pdf.pdf_url, Ev.uploaded pdf.pdf_url] := by
            simp [hu]
          rw [List.count_eq_zero.mpr hz]
          simp [List.mem_cons, hu]
      · refine noResub_append hr ?_ ?_
        · intro u hu
          have hus : u ∈ s := mem_of_uploaded hc hu
          have hne : u ≠ pdf.pdf_url := fun he => hin (he ▸ hus)
          simp [hne]
        · intro u a b hab
          cases a with
          | nil => simp at hab
          | cons x xs =>
            cases xs with
            | nil =>
              simp only [List.cons_append, List.nil_append, List.cons.injEq] at hab
              obtain ⟨-, -, hb⟩ := hab
              simp [← hb]
            | cons y ys =>
              simp at hab

/-- Unfolding equation for the download loop on a cons cell. -/
theorem process_cons (h8 : String → String) (ora : Nat → NetOutcome)
    (pdf : PdfInfo) (rest : List PdfInfo) (st : List String × Nat) :
    process_pdfs h8 ora (pdf :: rest) st =
      ((process_pdfs h8 ora rest
          ((download_pdf h8 pdf st.1 (ora st.2)).2.1, st.2 + 1)).1,
       (download_pdf h8 pdf st.1 (ora st.2)).2.2 ++
         (process_pdfs h8 ora rest
           ((download_pdf h8 pdf st.1 (ora st.2)).2.1, st.2 + 1)).2) := rfl

/-- The download loop preserves the deduplication invariant. -/
theorem dedupInv_process (h8 : String → String) (ora : Nat → NetOutcome)
    (pdfs : List PdfInfo) :
    ∀ (st : List String × Nat) (evs : List Ev), DedupInv st.1 evs →
      DedupInv (process_pdfs h8 ora pdfs st).1.1
        (evs ++ (process_pdfs h8 ora pdfs st).2) := by
  induction pdfs with
  | nil =>
    intro st evs h
    simpa [process_pdfs] using h
  | cons pdf rest ih =>
    intro st evs h
    have h1 := dedupInv_download h h8 pdf (ora st.2)
    have h2 := ih ((download_pdf h8 pdf st.1 (ora st.2)).2.1, st.2 + 1) _ h1
    rw [process_cons]
    dsimp only
    rw [← List.append_assoc]
    exact h2

/-- The events of the row loop of the extractor carry no download work. -/
theorem extractRows_events (p : Nat) (row : Row) (rest : List Row) :
    (extractRows p (row :: rest)).2 = (extractRows p rest).2 ∨
    (extractRows p (row :: rest)).2 = Ev.insufficientCols p :: (extractRows p rest).2 := by
  by_cases h5 : row.cols.length ≥ 5
  · cases hh : (cellAt row.cols 4).href with
    | none => left; simp [extractRows, h5, hh]
    | some sv =>
      by_cases hs : sv = ""
      · left; simp [extractRows, h5, hh, hs]
      · left; simp [extractRows, h5, hh, hs]
  · right; simp [extractRows, h5]

theorem extractRows_noDl (p : Nat) (rows : List Row) : NoDl (extractRows p rows).2 := by
  induction rows with
  | nil =>
    intro u
    simp [extractRows]
  | cons row rest ih =>
    intro u
    rcases extractRows_events p row rest with h | h <;> rw [h]
    · exact ih u
    · obtain ⟨h1, h2⟩ := ih u
      constructor <;> simp [List.mem_cons, h1, h2]

/-- The events of the extractor carry no download work. -/
theorem extract_noDl (doc : Doc) (raw : String) (p : Nat) :
    NoDl (extract_pdfs doc raw p).2 := by
  intro u
  by_cases hnr : (strContains (pyLower raw) ("no records found") ||
      strContains (pyLower raw) ("no matching records")) = true
  · simp [extract_pdfs, hnr]
  · cases ht : doc.table with
    | none => simp [extract_pdfs, hnr, ht]
    | some rows =>
      obtain ⟨h1, h2⟩ := extractRows_noDl p (rows.drop 1) u
      rw [List.drop_one] at h1 h2
      constructor <;> simp [extract_pdfs, hnr, ht, h1, h2]

/-- The pages-from-2 loop preserves the deduplication invariant. -/
theorem dedupInv_pageLoop (env : Env) (h8 : String → String) (i : Nat)
    (pages : List Nat) :
    ∀ (st : List String × Nat) (evs : List Ev), DedupInv st.1 evs →
      DedupInv (pageLoop env h8 i pages st).2.1
        (evs ++ (pageLoop env h8 i pages st).1) := by
  induction pages with
  | nil =>
    intro st evs h
    simpa [pageLoop] using h
  | cons p rest ih =>
    intro st evs h
    cases hf : env.fetch i p with
    | none =>
      have h1 : DedupInv st.1 (evs ++ [Ev.fetchingPage p, Ev.fetchError p]) :=
        dedupInv_append_noDl h (by intro u; simp)
      have h2 := ih st _ h1
      simpa [pageLoop, fetch_page, hf, List.append_assoc] using h2
    | some pg =>
      have h1 : DedupInv st.1
          (evs ++ (Ev.fetchingPage p :: Ev.fetchStatus p ::
            (extract_pdfs pg.doc pg.raw p).2)) := by
        refine dedupInv_append_noDl h ?_
        intro u
        obtain ⟨hx1, hx2⟩ := extract_noDl pg.doc pg.raw p u
        constructor <;> simp [List.mem_cons, hx1, hx2]
      have h2 := dedupInv_process h8 (env.net i) (extract_pdfs pg.doc pg.raw p).1 st _ h1
      have h3 := dedupInv_append_noDl h2 (show NoDl [Ev.debugSaved p] by intro u; simp)
      have h4 := ih (process_pdfs h8 (env.net i) (extract_pdfs pg.doc pg.raw p).1 st).1 _ h3
      simpa [pageLoop, fetch_page, hf, List.append_assoc] using h4

/-- A trace with no download work satisfies the invariant with the empty
seen-set. -/
theorem dedupInv_of_noDl {evs : List Ev} (h : NoDl evs) : DedupInv [] evs := by
  simpa using dedupInv_append_noDl dedupInv_nil h

/-- The full per-combination trace satisfies the deduplication invariant
with the combination's final seen-set. -/
theorem dedupInv_processCombo (env : Env) (h8 : String → String) (i : Nat) :
    DedupInv (processCombo env h8 i).2 (processCombo env h8 i).1 := by
  cases hf : env.fetch i 1 with
  | none =>
    have : processCombo env h8 i = ([Ev.processingCombo i, Ev.fetchError 1], []) := by
      simp [processCombo, fetch_page, hf]
    rw [this]
    exact dedupInv_of_noDl (by intro u; simp)
  | some pg =>
    by_cases hskip : (extract_pdfs pg.doc pg.raw 1).1 = [] ∧
        strContains (pyLower pg.raw) ("no records") = true
    · have : processCombo env h8 i =
          (Ev.processingCombo i :: [Ev.fetchStatus 1] ++
            [Ev.foundPages (get_total_pages pg.doc)] ++
            (extract_pdfs pg.doc pg.raw 1).2 ++ [Ev.skipFurtherPages], []) := by
        simp [processCombo, fetch_page, hf, hskip]
      rw [this]
      refine dedupInv_of_noDl ?_
      intro u
      obtain ⟨hx1, hx2⟩ := extract_noDl pg.doc pg.raw 1 u
      constructor <;> simp [List.mem_cons, hx1, hx2]
    · have h0 : DedupInv ([] : List String)
          (Ev.processingCombo i :: Ev.fetchStatus 1 ::
            Ev.foundPages (get_total_pages pg.doc) ::
            (extract_pdfs pg.doc pg.raw 1).2) := by
        refine dedupInv_of_noDl ?_
        intro u
        obtain ⟨hx1, hx2⟩ := extract_noDl pg.doc pg.raw 1 u
        constructor <;> simp [List.mem_cons, hx1, hx2]
      have h1 := dedupInv_process h8 (env.net i) (extract_pdfs pg.doc pg.raw 1).1 ([], 0) _ h0
      have h2 := dedupInv_append_noDl h1 (show NoDl [Ev.debugSaved 1] by intro u; simp)
      have h3 := dedupInv_pageLoop env h8 i (pageRange (get_total_pages pg.doc))
        (process_pdfs h8 (env.net i) (extract_pdfs pg.doc pg.raw 1).1 ([], 0)).1 _ h2
      have hgoal : processCombo env h8 i =
          ((Ev.processingCombo i :: Ev.fetchStatus 1 ::
              Ev.foundPages (get_total_pages pg.doc) ::
              (extract_pdfs pg.doc pg.raw 1).2 ++
              (process_pdfs h8 (env.net i) (extract_pdfs pg.doc pg.raw 1).1 ([], 0)).2 ++
              [Ev.debugSaved 1] ++
              (pageLoop env h8 i (pageRange (get_total_pages pg.doc))
                (process_pdfs h8 (env.net i) (extract_pdfs pg.doc pg.raw 1).1 ([], 0)).1).1),
            (pageLoop env h8 i (pageRange (get_total_pages pg.doc))
              (process_pdfs h8 (env.net i) (extract_pdfs pg.doc pg.raw 1).1 ([], 0)).1).2.1) := by
        simp [processCombo, fetch_page, hf, hskip]
      rw [hgoal]
      simpa [List.append_assoc] using h3

/-- C1: for every combination, the seen-set never contains the same
pdf_url twice (it is duplicate-free at every point of the run, the final
state shown here being the largest); the completed download-and-upload
work happens at most once per distinct pdf_url of the combination (at most
one upload event per url in the trace); and a url that has entered the
seen-set — equivalently, a url whose upload was confirmed — is never again
submitted for download work: after its upload event the trace holds no
further GET attempt and no further upload for it. -/
theorem C1_dedup_per_combination (env : Env) (h8 : String → String) (i : Nat) :
    ((processCombo env h8 i).2).Nodup ∧
    (∀ u, ((processCombo env h8 i).1).count (Ev.uploaded u) ≤ 1) ∧
    (∀ u a b, (processCombo env h8 i).1 = a ++ Ev.uploaded u :: b →
      Ev.getAttempt u ∉ b ∧ Ev.uploaded u ∉ b) := by
  obtain ⟨hn, hc, hr⟩ := dedupInv_processCombo env h8 i
  refine ⟨hn, ?_, hr⟩
  intro u
  rw [hc u]
  split <;> omega

theorem C1_dedup_per_combination_witness :
    (processCombo envOneRow h8fix 0).1 =
      [Ev.processingCombo 0, Ev.fetchStatus 1, Ev.foundPages 1, Ev.foundPdfs 1 1,
       Ev.getAttempt urlOneRow] ++ Ev.uploaded urlOneRow :: [Ev.debugSaved 1] ∧
    Ev.getAttempt urlOneRow ∉ [Ev.debugSaved 1] ∧
    Ev.uploaded urlOneRow ∉ [Ev.debugSaved 1] :=
  ⟨by decide,
   (C1_dedup_per_combination envOneRow h8fix 0).2.2 urlOneRow
     [Ev.processingCombo 0, Ev.fetchStatus 1, Ev.foundPages 1, Ev.foundPdfs 1 1,
      Ev.getAttempt urlOneRow] [Ev.debugSaved 1] (by decide)⟩

/-! ## Seen-set membership and retry behaviour (C9) -/

/-- One `download_pdf` call never removes a url from the seen-set. -/
theorem download_mono {h8 : String → String} {pdf : PdfInfo} {s : List String}
    {out : NetOutcome} {u : String} (h : u ∈ s) :
    u ∈ (download_pdf h8 pdf s out).2.1 := by
  by_cases hin : pdf.pdf_url ∈ s
  · rw [download_pdf_seen hin]; exact h
  · cases out with
    | downloadFail => rw [download_pdf_dlFail hin]; exact h
    | uploadFail => rw [download_pdf_upFail hin]; exact h
    | ok => rw [download_pdf_ok hin]; exact List.mem_cons_of_mem _ h

/-- The download loop never removes a url from the seen-set. -/
theorem process_mono (h8 : String → String) (ora : Nat → NetOutcome)
    (pdfs : List PdfInfo) :
    ∀ (st : List String × Nat) (u : String), u ∈ st.1 →
      u ∈ (process_pdfs h8 ora pdfs st).1.1 := by
  induction pdfs with
  | nil => intro st u h; simpa [process_pdfs] using h
  | cons pdf rest ih =>
    intro st u h
    rw [process_cons]
    exact ih _ u (download_mono h)

/-- GET attempts emitted by one `download_pdf` call: one for the url of the
descriptor when that url is fresh, none otherwise. -/
theorem download_getAttempt_count (h8 : String → String) (pdf : PdfInfo)
    (s : List String) (out : NetOutcome) (u : String) :
    ((download_pdf h8 pdf s out).2.2).count (Ev.getAttempt u) =
      if pdf.pdf_url ∉ s ∧ pdf.pdf_url = u then 1 else 0 := by
  by_cases hin : pdf.pdf_url ∈ s
  · rw [download_pdf_seen hin]
    simp [hin]
  · cases out with
    | downloadFail =>
      rw [download_pdf_dlFail hin]
      by_cases hu : pdf.pdf_url = u
      · subst hu; simp [hin, List.count_cons]
      · simp [hin, hu, List.count_cons]
    | uploadFail =>
      rw [download_pdf_upFail hin]
      by_cases hu : pdf.pdf_url = u
      · subst hu; simp [hin, List.count_cons]
      · simp [hin, hu, List.count_cons]
    | ok =>
      rw [download_pdf_ok hin]
      by_cases hu : pdf.pdf_url = u
      · subst hu; simp [hin, List.count_cons]
      · simp [hin, hu, List.count_cons]

/-- A url that never makes it into the seen-set is attempted at every one
of its occurrences in the descriptor list: the trace holds exactly as many
GET attempts for it as the list holds descriptors carrying it. -/
theorem process_getAttempt_of_not_seen (h8 : String → String) (ora : Nat → NetOutcome)
    (pdfs : List PdfInfo) :
    ∀ (st : List String × Nat) (u : String),
      u ∉ (process_pdfs h8 ora pdfs st).1.1 →
      ((process_pdfs h8 ora pdfs st).2).count (Ev.getAttempt u) =
        pdfs.countP (fun x => x.pdf_url == u) := by
  induction pdfs with
  | nil => intro st u _; simp [process_pdfs]
  | cons pdf rest ih =>
    intro st u hfin
    rw [process_cons] at hfin ⊢
    dsimp only at hfin ⊢
    have hfin' : u ∉ (process_pdfs h8 ora rest
        ((download_pdf h8 pdf st.1 (ora st.2)).2.1, st.2 + 1)).1.1 := hfin
    have hnr : u ∉ (download_pdf h8 pdf st.1 (ora st.2)).2.1 := by
      intro hmem
      exact hfin' (process_mono h8 ora rest _ u hmem)
    have hns : u ∉ st.1 := fun hmem => hnr (download_mono hmem)
    rw [List.count_append, download_getAttempt_count, List.countP_cons,
      ih ((download_pdf h8 pdf st.1 (ora st.2)).2.1, st.2 + 1) u hfin']
    by_cases hu : pdf.pdf_url = u
    · have hin : pdf.pdf_url ∉ st.1 := fun hmem => hns (hu ▸ hmem)
      rw [if_pos ⟨hin, hu⟩]
      simp [hu]
      omega
    · rw [if_neg (fun hp => hu hp.2)]
      simp [hu]

/-- C9: for the per-combination download sequence started on a fresh
seen-set, a url is in the seen-set exactly when its upload was confirmed
(so the url is added only after the upload succeeded); a url that never
made it into the set — every attempt for it failed — is attempted again at
every later descriptor carrying it; and a `download_pdf` call whose
download or upload failed leaves the seen-set unchanged. -/
theorem C9_seen_only_after_upload (h8 : String → String) (ora : Nat → NetOutcome)
    (pdfs : List PdfInfo) :
    (∀ u, u ∈ (process_pdfs h8 ora pdfs ([], 0)).1.1 ↔
      Ev.uploaded u ∈ (process_pdfs h8 ora pdfs ([], 0)).2) ∧
    (∀ u, u ∉ (process_pdfs h8 ora pdfs ([], 0)).1.1 →
      ((process_pdfs h8 ora pdfs ([], 0)).2).count (Ev.getAttempt u) =
        pdfs.countP (fun x => x.pdf_url == u)) ∧
    (∀ (pdf : PdfInfo) (s : List String) (out : NetOutcome), out ≠ NetOutcome.ok →
      (download_pdf h8 pdf s out).2.1 = s) := by
  have hinv := dedupInv_process h8 ora pdfs ([], 0) [] (by simpa using dedupInv_nil)
  rw [List.nil_append] at hinv
  obtain ⟨-, hc, -⟩ := hinv
  refine ⟨?_, process_getAttempt_of_not_seen h8 ora pdfs ([], 0), ?_⟩
  · intro u
    constructor
    · intro hmem
      have := hc u
      rw [if_pos hmem] at this
      exact List.count_pos_iff.mp (by omega)
    · exact mem_of_uploaded hc
  · intro pdf s out hout
    by_cases hin : pdf.pdf_url ∈ s
    · rw [download_pdf_seen hin]
    · cases out with
      | downloadFail => rw [download_pdf_dlFail hin]
      | uploadFail => rw [download_pdf_upFail hin]
      | ok => exact absurd rfl hout

def pdfDup : PdfInfo :=
  { case_no := "1", title := "T", judgement_date := "d", pdf_url := "u" }

theorem C9_seen_only_after_upload_witness :
    ("u" ∉ (process_pdfs h8fix (fun _ => NetOutcome.downloadFail)
        [pdfDup, pdfDup] ([], 0)).1.1) ∧
    ((process_pdfs h8fix (fun _ => NetOutcome.downloadFail)
        [pdfDup, pdfDup] ([], 0)).2).count (Ev.getAttempt "u") =
      ([pdfDup, pdfDup].countP (fun x => x.pdf_url == "u")) :=
  ⟨by decide,
   (C9_seen_only_after_upload h8fix (fun _ => NetOutcome.downloadFail)
      [pdfDup, pdfDup]).2.1 "u" (by decide)⟩

/-- C2: at a page-1 response whose raw text is the mixed-case phrase
No Matching Records (and whose banner resolves to 5 pages), the extractor
does return the empty sequence, but the orchestrator still issues fetches
for page 2 and beyond: the skip guard of the orchestrator tests for the
substring `no records`, which does not occur in `no matching records`, so
the claimed no-further-fetches behaviour does not hold on the code. -/
theorem C2_no_matching_records_still_fetches_page2 :
    strContains (pyLower pageNMR.raw) ("no matching records") = true ∧
    strContains (pyLower pageNMR.raw) ("no records") = false ∧
    (extract_pdfs pageNMR.doc pageNMR.raw 1).1 = [] ∧
    Ev.fetchingPage 2 ∈ (processCombo envNMR h8fix 0).1 ∧
    Ev.fetchError 2 ∈ (processCombo envNMR h8fix 0).1 := by decide

/-- C3: a run whose combination list loads empty aborts, but emits only the
non-terminal message modelled by `noCombos` — neither the terminal failure
event nor the terminal success event appears, against the claim that the
abort emits a terminal failure event.  The other two boundaries behave as
claimed: a failed blob-sink initialisation yields the terminal failure
event, and a run with only recoverable errors (here a failed page fetch)
ends with the terminal success event. -/
theorem C3_empty_combinations_no_terminal_event :
    crawl_pdfs envNoCombos h8fix = [Ev.connected, Ev.noCombos] ∧
    Ev.errorInCrawling ∉ crawl_pdfs envNoCombos h8fix ∧
    Ev.completed ∉ crawl_pdfs envNoCombos h8fix ∧
    crawl_pdfs { envNoCombos with driveOk := false } h8fix = [Ev.errorInCrawling] ∧
    Ev.completed ∈ crawl_pdfs envFailP1 h8fix := by decide

/-- C4 counterexample: in a run whose first combination fails its page-1
fetch, the orchestrator does not proceed to any further page of that
combination — its whole trace is the fetch error — and the next event
belongs to the next combination, against the claim that a page-1 fetch
failure leads to the next page number of the same combination. -/
theorem C4_page1_failure_abandons_combination :
    envFailP1.fetch 0 1 = none ∧
    (processCombo envFailP1 h8fix 0).1 = [Ev.processingCombo 0, Ev.fetchError 1] ∧
    Ev.fetchingPage 2 ∉ (processCombo envFailP1 h8fix 0).1 ∧
    Ev.fetchStatus 2 ∉ (processCombo envFailP1 h8fix 0).1 ∧
    Ev.fetchError 2 ∉ (processCombo envFailP1 h8fix 0).1 ∧
    crawl_pdfs envFailP1 h8fix =
      [Ev.connected, Ev.processingCombo 0, Ev.fetchError 1,
       Ev.processingCombo 1, Ev.fetchStatus 1, Ev.foundPages 1, Ev.foundPdfs 1 0,
       Ev.debugSaved 1, Ev.completed] := by decide

/-- C4 as amended: a failed fetch of a page from 2 on contributes exactly
the announcement and the error event — no descriptors, no debug dump, the
seen-set unchanged — and the loop continues with the remaining pages; a
failed page-1 fetch abandons the combination entirely: its trace is just
the announcement and the error event and its seen-set is empty. -/
theorem C4_fetch_failure_skips (env : Env) (h8 : String → String) (i : Nat) :
    (env.fetch i 1 = none →
      processCombo env h8 i = ([Ev.processingCombo i, Ev.fetchError 1], [])) ∧
    (∀ p rest st, env.fetch i p = none →
      pageLoop env h8 i (p :: rest) st =
        (Ev.fetchingPage p :: Ev.fetchError p :: (pageLoop env h8 i rest st).1,
         (pageLoop env h8 i rest st).2)) := by
  constructor
  · intro hf
    simp [processCombo, fetch_page, hf]
  · intro p rest st hf
    simp [pageLoop, fetch_page, hf]

theorem C4_fetch_failure_skips_witness :
    (envFailP1.fetch 0 1 = none ∧
      processCombo envFailP1 h8fix 0 = ([Ev.processingCombo 0, Ev.fetchError 1], [])) ∧
    (envFailP1.fetch 0 2 = none ∧
      pageLoop envFailP1 h8fix 0 [2] ([], 0) =
        (Ev.fetchingPage 2 :: Ev.fetchError 2 :: (pageLoop envFailP1 h8fix 0 [] ([], 0)).1,
         (pageLoop envFailP1 h8fix 0 [] ([], 0)).2)) :=
  ⟨⟨by decide, (C4_fetch_failure_skips envFailP1 h8fix 0).1 (by decide)⟩,
   ⟨by decide, (C4_fetch_failure_skips envFailP1 h8fix 0).2 2 [] ([], 0) (by decide)⟩⟩

/-- C5 counterexample: a descriptor whose url is fresh but whose download
fails returns false with the seen-set unchanged — the url is not inserted,
against the claim that a fresh url is inserted and true returned. -/
theorem C5_failed_download_not_inserted :
    pdfDup.pdf_url ∉ ([] : List String) ∧
    (download_pdf h8fix pdfDup [] NetOutcome.downloadFail).1 = false ∧
    (download_pdf h8fix pdfDup [] NetOutcome.downloadFail).2.1 = [] := by decide

/-- C5 as amended: a url already in the seen-set returns false with the set
unchanged; a fresh url is inserted and true returned only when download and
upload both succeed; a fresh url whose download or upload fails returns
false with the set unchanged. -/
theorem C5_dedup_contract (h8 : String → String) (pdf : PdfInfo) (s : List String)
    (out : NetOutcome) :
    (pdf.pdf_url ∈ s →
      (download_pdf h8 pdf s out).1 = false ∧ (download_pdf h8 pdf s out).2.1 = s) ∧
    (pdf.pdf_url ∉ s → out = NetOutcome.ok →
      (download_pdf h8 pdf s out).1 = true ∧
      (download_pdf h8 pdf s out).2.1 = pdf.pdf_url :: s) ∧
    (pdf.pdf_url ∉ s → out ≠ NetOutcome.ok →
      (download_pdf h8 pdf s out).1 = false ∧ (download_pdf h8 pdf s out).2.1 = s) := by
  refine ⟨?_, ?_, ?_⟩
  · intro hin
    rw [download_pdf_seen hin]
    exact ⟨rfl, rfl⟩
  · intro hin hout
    subst hout
    rw [download_pdf_ok hin]
    exact ⟨rfl, rfl⟩
  · intro hin hout
    cases out with
    | downloadFail => rw [download_pdf_dlFail hin]; exact ⟨rfl, rfl⟩
    | uploadFail => rw [download_pdf_upFail hin]; exact ⟨rfl, rfl⟩
    | ok => exact absurd rfl hout

theorem C5_dedup_contract_witness :
    (pdfDup.pdf_url ∉ ([] : List String)) ∧
    (download_pdf h8fix pdfDup [] NetOutcome.ok).1 = true ∧
    (download_pdf h8fix pdfDup [] NetOutcome.ok).2.1 = pdfDup.pdf_url :: [] :=
  ⟨by decide,
   ((C5_dedup_contract h8fix pdfDup [] NetOutcome.ok).2.1 (by decide) rfl).1,
   ((C5_dedup_contract h8fix pdfDup [] NetOutcome.ok).2.1 (by decide) rfl).2⟩

/-- C10 counterexample: a page-1 fetch succeeds, the raw text is the
no-records phrase, and the early exit fires — the page is processed but
never archived, against the claim that every successfully fetched page is
archived. -/
theorem C10_early_exit_page1_not_archived :
    envNRF.fetch 0 1 = some pageNRF ∧
    (processCombo envNRF h8fix 0).1 =
      [Ev.processingCombo 0, Ev.fetchStatus 1, Ev.foundPages 1, Ev.noRecords 1,
       Ev.skipFurtherPages] ∧
    Ev.debugSaved 1 ∉ (processCombo envNRF h8fix 0).1 := by decide

/-- C10 as amended: every successfully fetched page is archived after
processing — even a well-formed page that yielded descriptors — except
page 1 when the no-records early exit fires (nothing extracted and the raw
text holds the no-records phrase). -/
theorem C10_archive_after_processing (env : Env) (h8 : String → String) (i : Nat) :
    (∀ pg, env.fetch i 1 = some pg →
      ¬((extract_pdfs pg.doc pg.raw 1).1 = [] ∧
        strContains (pyLower pg.raw) ("no records") = true) →
      Ev.debugSaved 1 ∈ (processCombo env h8 i).1) ∧
    (∀ pages st p pg, p ∈ pages → env.fetch i p = some pg →
      Ev.debugSaved p ∈ (pageLoop env h8 i pages st).1) := by
  constructor
  · intro pg hf hskip
    simp [processCombo, fetch_page, hf, hskip]
  · intro pages
    induction pages with
    | nil =>
      intro st p pg hp
      cases hp
    | cons q rest ih =>
      intro st p pg hp hf
      rcases List.mem_cons.mp hp with rfl | hp'
      · simp [pageLoop, fetch_page, hf]
      · cases hfq : env.fetch i q with
        | none =>
          have := ih st p pg hp' hf
          simp [pageLoop, fetch_page, hfq, this]
        | some pg2 =>
          have := ih (process_pdfs h8 (env.net i)
            (extract_pdfs pg2.doc pg2.raw q).1 st).1 p pg hp' hf
          simp [pageLoop, fetch_page, hfq, this]

/-- Environment every page of which fetches the featureless page. -/
def envAll : Env :=
  { driveOk := true
  , combos := [combo31]
  , fetch := fun _ _ => some pagePlain
  , net := fun _ _ => NetOutcome.ok }

theorem C10_archive_after_processing_witness :
    (envAll.fetch 0 1 = some pagePlain ∧
      Ev.debugSaved 1 ∈ (processCombo envAll h8fix 0).1) ∧
    (2 ∈ [2] ∧ envAll.fetch 0 2 = some pagePlain ∧
      Ev.debugSaved 2 ∈ (pageLoop envAll h8fix 0 [2] ([], 0)).1) :=
  ⟨⟨by decide,
    (C10_archive_after_processing envAll h8fix 0).1 pagePlain (by decide) (by decide)⟩,
   ⟨by decide, by decide,
    (C10_archive_after_processing envAll h8fix 0).2 [2] ([], 0) 2 pagePlain
      (by decide) (by decide)⟩⟩

/-! ## Page-count contract (C6, C7) -/

def docZero : Doc := { banner := some ("total 0 records"), totalNoPage := none, table := none }

def doc47 : Doc := { banner := some ("total 47 records"), totalNoPage := none, table := none }

/-- When the banner pattern matches, the page count is the rounded-up
division of the record count by ten. -/
theorem get_eq_banner (doc : Doc) (n : Nat) (h : bannerCount doc = some n) :
    get_total_pages doc = (((n + 10 - 1) / 10 : ℕ) : ℤ) := by
  cases hb : doc.banner with
  | none => rw [bannerCount, hb] at h; cases h
  | some text =>
    have hfind : findTotalRecords (pyStripList text.data) = some n := by
      rw [bannerCount, hb] at h; exact h
    simp [get_total_pages, hb, hfind]

/-- When the banner pattern does not match, the fallback path decides. -/
theorem get_eq_fallback (doc : Doc) (h : bannerCount doc = none) :
    get_total_pages doc = fallbackPages doc := by
  cases hb : doc.banner with
  | none => simp [get_total_pages, hb]
  | some text =>
    have hfind : findTotalRecords (pyStripList text.data) = none := by
      rw [bannerCount, hb] at h; exact h
    simp [get_total_pages, hb, hfind]

/-- C6 counterexample: a document whose banner reports zero records makes
`get_total_pages` return 0, not an integer greater than or equal to 1. -/
theorem C6_zero_records_zero_pages :
    bannerCount docZero = some 0 ∧ get_total_pages docZero = 0 ∧
    ¬(1 ≤ get_total_pages docZero) := by decide

/-- C6 as amended: the result is the rounded-up division of the banner
count when the banner matches — at least 1 whenever the count is at least 1
but 0 for a zero count; when the banner does not match, the hidden field
value is returned verbatim when it parses (so a value of 0 or less is
passed through); and when the hidden field is absent, empty, or fails to
parse, the result is exactly 1. -/
theorem C6_page_count_contract (doc : Doc) :
    (∀ n, bannerCount doc = some n →
      get_total_pages doc = (((n + 10 - 1) / 10 : ℕ) : ℤ)) ∧
    (∀ n, bannerCount doc = some n → 1 ≤ n → 1 ≤ get_total_pages doc) ∧
    (∀ v k, bannerCount doc = none → doc.totalNoPage = some v → v ≠ "" →
      pythonInt v = some k → get_total_pages doc = k) ∧
    (bannerCount doc = none →
      (doc.totalNoPage = none ∨ doc.totalNoPage = some "" ∨
        (∃ v, doc.totalNoPage = some v ∧ pythonInt v = none)) →
      get_total_pages doc = 1) := by
  refine ⟨get_eq_banner doc, ?_, ?_, ?_⟩
  · intro n h hn
    rw [get_eq_banner doc n h]
    have h10 : 10 ≤ n + 9 := by omega
    have hdiv : 1 ≤ (n + 9) / 10 := by
      calc 1 = 10 / 10 := by norm_num
      _ ≤ (n + 9) / 10 := Nat.div_le_div_right h10
    have he : n + 10 - 1 = n + 9 := by omega
    rw [he]
    omega
  · intro v k h hv hne hp
    rw [get_eq_fallback doc h, fallbackPages, hv]
    simp [hne, hp]
  · intro h hcase
    rw [get_eq_fallback doc h]
    rcases hcase with hv | hv | ⟨v, hv, hp⟩
    · simp [fallbackPages, hv]
    · simp [fallbackPages, hv]
    · by_cases hne : v = ""
      · simp [fallbackPages, hv, hne]
      · simp [fallbackPages, hv, hne, hp]

theorem C6_page_count_contract_witness :
    bannerCount doc47 = some 47 ∧ (1 ≤ 47) ∧ 1 ≤ get_total_pages doc47 :=
  ⟨by decide, by norm_num,
   (C6_page_count_contract doc47).2.1 47 (by decide) (by norm_num)⟩

/-- Rounding-up Nat division by ten agrees with the rational ceiling. -/
theorem natCeilDiv_eq (n : Nat) : (((n + 10 - 1) / 10 : ℕ) : ℤ) = ⌈(n : ℚ) / 10⌉ := by
  have he : n + 10 - 1 = n + 9 := by omega
  rw [he]
  have hdm := Nat.div_add_mod (n + 9) 10
  have hml : (n + 9) % 10 < 10 := Nat.mod_lt _ (by norm_num)
  obtain ⟨q, hq⟩ : ∃ q, (n + 9) / 10 = q := ⟨_, rfl⟩
  rw [hq] at hdm ⊢
  have h1 : n ≤ 10 * q := by omega
  have h2 : 10 * q ≤ n + 9 := by omega
  have h1q : (n : ℚ) ≤ 10 * (q : ℚ) := by exact_mod_cast h1
  have h2q : (10 : ℚ) * (q : ℚ) ≤ (n : ℚ) + 9 := by exact_mod_cast h2
  rw [eq_comm, Int.ceil_eq_iff]
  constructor
  · push_cast
    rw [lt_div_iff₀ (by norm_num : (0 : ℚ) < 10)]
    linarith
  · push_cast
    rw [div_le_iff₀ (by norm_num : (0 : ℚ) < 10)]
    linarith

/-- C7: whenever the banner text matches the record-count pattern with
count `n`, `get_total_pages` returns the ceiling of `n` divided by the
fixed ten-records-per-page constant. -/
theorem C7_banner_count_ceil (doc : Doc) (n : Nat) (h : bannerCount doc = some n) :
    get_total_pages doc = ⌈(n : ℚ) / 10⌉ := by
  rw [get_eq_banner doc n h]
  exact natCeilDiv_eq n

theorem C7_banner_count_ceil_witness :
    bannerCount doc47 = some 47 ∧
    get_total_pages doc47 = ⌈(47 : ℚ) / 10⌉ ∧
    get_total_pages doc47 = 5 :=
  ⟨by decide, C7_banner_count_ceil doc47 47 (by decide), by decide⟩

/-! ## Filename derivation (C8) -/

/-- Every character the whitespace-collapsing step emits is either the
underscore or a non-whitespace character of its input. -/
theorem collapseWs_mem {c : Char} : ∀ (b : Bool) (l : List Char),
    c ∈ collapseWsAux b l → c = '_' ∨ (c ∈ l ∧ pyWs c = false) := by
  intro b l
  induction l generalizing b with
  | nil =>
    intro h
    cases b <;> cases h
  | cons d cs ih =>
    intro h
    by_cases hd : pyWs d
    · cases b with
      | true =>
        rw [show collapseWsAux true (d :: cs) = collapseWsAux true cs by
          simp [collapseWsAux, hd]] at h
        rcases ih true h with h1 | ⟨h2, h3⟩
        · exact Or.inl h1
        · exact Or.inr ⟨List.mem_cons_of_mem _ h2, h3⟩
      | false =>
        rw [show collapseWsAux false (d :: cs) = '_' :: collapseWsAux true cs by
          simp [collapseWsAux, hd]] at h
        rcases List.mem_cons.mp h with rfl | h'
        · exact Or.inl rfl
        · rcases ih true h' with h1 | ⟨h2, h3⟩
          · exact Or.inl h1
          · exact Or.inr ⟨List.mem_cons_of_mem _ h2, h3⟩
    · have hstep : ∀ b0 : Bool, collapseWsAux b0 (d :: cs) = d :: collapseWsAux false cs := by
        intro b0
        simp [collapseWsAux, hd]
      rw [hstep b] at h
      rcases List.mem_cons.mp h with rfl | h'
      · exact Or.inr ⟨List.mem_cons_self _ _, by simpa using hd⟩
      · rcases ih false h' with h1 | ⟨h2, h3⟩
        · exact Or.inl h1
        · exact Or.inr ⟨List.mem_cons_of_mem _ h2, h3⟩

/-- Stripping only removes characters. -/
theorem pyStripList_subset {c : Char} {l : List Char} (h : c ∈ pyStripList l) : c ∈ l := by
  rw [pyStripList, List.mem_reverse] at h
  have h2 := (List.dropWhile_sublist _).subset h
  rw [List.mem_reverse] at h2
  exact (List.dropWhile_sublist _).subset h2

/-- The sanitised title is at most 100 characters long. -/
theorem sanitize_title_len (t : String) : (sanitize_title t).length ≤ 100 := by
  rw [sanitize_title]
  dsimp [String.length]
  exact List.length_take_le _ _

/-- Every character of the sanitised title is outside the removed class and
is not whitespace. -/
theorem sanitize_title_chars (t : String) (c : Char)
    (h : c ∈ (sanitize_title t).data) : invalidChar c = false ∧ pyWs c = false := by
  rw [sanitize_title] at h
  dsimp only at h
  have h1 : c ∈ collapseWsAux false (pyStripList (t.data.filter (fun c => !invalidChar c))) :=
    (List.take_sublist _ _).subset h
  rcases collapseWs_mem false _ h1 with rfl | ⟨h2, h3⟩
  · exact ⟨by decide, by decide⟩
  · have h4 := pyStripList_subset h2
    have h5 := List.mem_filter.mp h4
    exact ⟨by simpa using h5.2, h3⟩

/-- Strings are equal when their character lists are. -/
theorem str_ext {s t : String} (h : s.data = t.data) : s = t := by
  cases s
  cases t
  cases h
  rfl

theorem str_data_append (s t : String) : (s ++ t).data = s.data ++ t.data := rfl

/-- Two filenames built with the fixed-width hash suffix agree only when
the hashes agree. -/
theorem filename_hash_inj {s1 s2 a b : String} (ha : a.length = 8) (hb : b.length = 8)
    (h : s1 ++ "_" ++ a ++ ".pdf" = s2 ++ "_" ++ b ++ ".pdf") : a = b := by
  have hd := congrArg String.data h
  rw [str_data_append, str_data_append, str_data_append,
    str_data_append, str_data_append, str_data_append] at hd
  rw [List.append_assoc, List.append_assoc, List.append_assoc, List.append_assoc] at hd
  have hlen : (("_").data ++ (a.data ++ (".pdf").data)).length =
      (("_").data ++ (b.data ++ (".pdf").data)).length := by
    have hla : a.data.length = 8 := ha
    have hlb : b.data.length = 8 := hb
    simp [hla, hlb]
  have hsuff := (List.append_inj' hd hlen).2
  have htail : a.data ++ (".pdf").data = b.data ++ (".pdf").data := by
    simpa using hsuff
  have hlab : a.data.length = b.data.length := by
    have hla : a.data.length = 8 := ha
    have hlb : b.data.length = 8 := hb
    rw [hla, hlb]
  exact str_ext (List.append_inj htail hlab).1

/-- C8 counterexample: the code removes only the characters of its explicit
class, not every character outside letters, digits, space, underscore,
hyphen: a period survives `sanitize_title` while the spec wording removes
it, so the derived filename differs from the claimed one. -/
theorem C8_strip_class_differs :
    sanitize_title ("a.b") = "a.b" ∧
    sanitize_title_specModel ("a.b") = "ab" ∧
    make_filename h8fix ("a.b") ("u") ≠ make_filename_specModel h8fix ("a.b") ("u") := by
  decide

/-- C8 as amended: the upload filename is the title with the characters of
the class (angle brackets, colon, quote, slashes, pipe, question mark,
asterisk) and the control characters removed, whitespace runs collapsed to
underscores, truncated to 100 characters, followed by the underscore
separator, the 8-character fingerprint of the url and the pdf extension.
The sanitised part is at most 100 characters and free of the removed class
and of whitespace; the derivation is a pure function of (title, url); and
any two (title, url) pairs whose 8-character fingerprints differ yield
different filenames. -/
theorem C8_filename_contract (h8 : String → String) (t1 t2 u1 u2 : String) :
    (sanitize_title t1).length ≤ 100 ∧
    (∀ c, c ∈ (sanitize_title t1).data → invalidChar c = false ∧ pyWs c = false) ∧
    ((h8 u1).length = 8 → (h8 u2).length = 8 → h8 u1 ≠ h8 u2 →
      make_filename h8 t1 u1 ≠ make_filename h8 t2 u2) := by
  refine ⟨sanitize_title_len t1, fun c hc => sanitize_title_chars t1 c hc, ?_⟩
  intro ha hb hne he
  rw [make_filename, make_filename] at he
  exact hne (filename_hash_inj ha hb he)

/-- Fingerprint function distinguishing two fixed urls. -/
def h8pair : String → String := fun s => if s = "u1" then "00000000" else "11111111"

theorem C8_filename_contract_witness :
    (h8pair ("u1")).length = 8 ∧ (h8pair ("u2")).length = 8 ∧
    h8pair ("u1") ≠ h8pair ("u2") ∧
    make_filename h8pair ("T") ("u1") ≠ make_filename h8pair ("T") ("u2") :=
  ⟨by decide, by decide, by decide,
   (C8_filename_contract h8pair ("T") ("T") ("u1") ("u2")).2.2
     (by decide) (by decide) (by decide)⟩

example : findTotalRecords (pyStripList ("total 47 records").data) = some 47 := by decide
example : get_total_pages { banner := some ("total 47 records"), totalNoPage := none, table := none } = 5 := by decide
example : get_total_pages { banner := some ("total 0 records"), totalNoPage := none, table := none } = 0 := by decide
example : get_total_pages { banner := none, totalNoPage := some ("7"), table := none } = 7 := by decide
example : get_total_pages { banner := none, totalNoPage := none, table := none } = 1 := by decide
example : sanitize_title ("a.b") = "a.b" := by decide
example : sanitize_title_specModel ("a.b") = "ab" := by decide
example : sanitize_title ("  Hello   World? ") = "Hello_World" := by decide
example : strContains (pyLower ("No Matching Records")) ("no records") = false := by decide
example : strContains (pyLower ("no records found here")) ("no records") = true := by decide
